import Mathlib

/-!
Shallow embedding of the RotaryEncoder Arduino library
(src/RotaryEncoder.h, src/RotaryEncoder.cpp).

Modelling conventions:
* `int` / `int8_t` fields become `Int`; `unsigned int` / `unsigned long`
  fields become `Nat`.  The counter update `setCount(getCount() ± stepWidth)`
  mixes `int` and `unsigned int`, so C computes it modulo 2^32 and converts
  the result back to `int`: that round trip is modelled exactly by `int32`
  (wrap into [-2^31, 2^31)), and the `unsigned long` subtraction
  `millis() - timePressed` exactly by the 32-bit wraparound subtraction
  `usub32`.
* Pin levels `LOW` / `HIGH` become `false` / `true`.  `digitalRead` of the
  phase and switch pins is abstracted as per-poll boolean inputs, and
  `millis()` as a per-poll `now : Nat` argument; the stored phase-pin
  numbers play no role in any state transition, so they are not modelled.
* The `encoderStatus_t` bitmask enum becomes `Nat` with `|||` for the
  C `|=`; `None = 0`, `Forward = 1`, `Reverse = 2`, `ButtonPressed = 4`,
  `ButtonLongPressed = 8`, `ButtonReleased = 16`.
* The C array read `transition[input][state]` is fallible (out-of-bounds
  indexing is undefined behaviour), so the lookup returns `Option Int`
  and `getStatus` propagates `none` when the read would be out of bounds.
* `delay(10)` is a side effect; `getStatus` returns a boolean recording
  whether the settling delay ran this poll.
-/

/-- The 4×7 transition table of `RotaryEncoder.cpp` (row = 2-bit input,
column = current quadrature state). -/
def transition : List (List Int) :=
  [[0, 1, 2, -1, 4, 5, -2],   -- !a && !b
   [1, 1, 2,  3, 4, 6,  6],   --  a && !b
   [4, 1, 3,  3, 4, 5,  6],   -- !a &&  b
   [0, 2, 2,  3, 5, 5,  6]]   --  a &&  b

/-- `transition[input][state]` as a fallible read: `none` models the
out-of-bounds (undefined-behaviour) access. -/
def lookupTransition (input state : Nat) : Option Int :=
  (transition.get? input).bind fun row => row.get? state

/-- Checks that a table-lookup result is defined and lies in the range
`[-2, 6]` of meaningful quadrature states and sentinels. -/
def entryOK (o : Option Int) : Bool :=
  o.elim false fun v => decide (-2 ≤ v) && decide (v ≤ 6)

/-- The row index selected by the four `if (a == .. && b == ..)` tests of
`getStatus`: (0,0) → 0, (1,0) → 1, (0,1) → 2, (1,1) → 3. -/
def inputIndex (a b : Bool) : Nat :=
  (cond a 1 0) + (cond b 2 0)

/-- 32-bit unsigned subtraction, the semantics of
`millis() - timePressed` on `unsigned long`. -/
def usub32 (x y : Nat) : Nat :=
  (x + 2 ^ 32 - y % 2 ^ 32) % 2 ^ 32

/-- Wrap an integer into the 32-bit two's-complement `int` range
[-2^31, 2^31).  This is the net effect of `getCount() + stepWidth`
(`int + unsigned int`: the `int` is converted to `unsigned`, the sum is
taken modulo 2^32) being passed to `setCount`'s `int` parameter
(converted back by the two's-complement wrap of the target platforms). -/
def int32 (n : Int) : Int :=
  (n + 2 ^ 31) % 2 ^ 32 - 2 ^ 31

/-- The mutable state of a `RotaryEncoder` object (the protected section of
`RotaryEncoder.h`, minus the two phase-pin numbers, which never influence
the state). -/
structure RotaryEncoder where
  switchPin : Int
  lowerLimit : Int
  upperLimit : Int
  stepWidth : Nat
  count : Int
  encoderStatus : Int
  switchStatus : Bool
  timeout : Nat
  timePressed : Nat
  lastResult : Nat
deriving Repr, DecidableEq

namespace RotaryEncoder

/-- `None = 0` of `encoderStatus_t` (named to avoid shadowing `Option`). -/
def statusNone : Nat := 0

/-- `Forward = 1` of `encoderStatus_t`. -/
def Forward : Nat := 1

/-- `Reverse = 2` of `encoderStatus_t`. -/
def Reverse : Nat := 2

/-- `ButtonPressed = 4` of `encoderStatus_t`. -/
def ButtonPressed : Nat := 4

/-- `ButtonLongPressed = 8` of `encoderStatus_t`. -/
def ButtonLongPressed : Nat := 8

/-- `ButtonReleased = 16` of `encoderStatus_t`. -/
def ButtonReleased : Nat := 16

/-- The constructor `RotaryEncoder::RotaryEncoder`. -/
def construct (aSwitchPin : Int) : RotaryEncoder where
  switchPin := aSwitchPin
  lowerLimit := 0
  upperLimit := 10
  stepWidth := 1
  count := 0
  encoderStatus := 0
  switchStatus := false
  timeout := 0
  timePressed := 0
  lastResult := statusNone

/-- `RotaryEncoder::begin` (the `pinMode` calls have no modelled effect). -/
def begin (e : RotaryEncoder) : RotaryEncoder :=
  { e with encoderStatus := 0, switchStatus := false }

/-- `RotaryEncoder::end` (does nothing). -/
def endRun (e : RotaryEncoder) : RotaryEncoder := e

/-- `RotaryEncoder::setSwitchTimeout`. -/
def setSwitchTimeout (e : RotaryEncoder) (aTimeout : Nat) : RotaryEncoder :=
  { e with timeout := aTimeout }

/-- `RotaryEncoder::setCount`. -/
def setCount (e : RotaryEncoder) (aCount : Int) : RotaryEncoder :=
  if e.lowerLimit ≤ aCount ∧ aCount ≤ e.upperLimit then
    { e with count := aCount }
  else
    e

/-- `RotaryEncoder::getCount`. -/
def getCount (e : RotaryEncoder) : Int := e.count

/-- `RotaryEncoder::setRange`. -/
def setRange (e : RotaryEncoder) (aLowerLimit aUpperLimit : Int)
    (aStepWidth : Nat) : RotaryEncoder :=
  let e1 := { e with lowerLimit := aLowerLimit, upperLimit := aUpperLimit,
                     stepWidth := aStepWidth }
  let e2 := if e1.getCount < e1.lowerLimit then e1.setCount e1.lowerLimit else e1
  if e2.getCount > e2.upperLimit then e2.setCount e2.upperLimit else e2

/-- The quadrature part of one `getStatus` poll: the negative-state reset
followed by the table lookup selected by the input pair. -/
def quadStep (st : Int) (a b : Bool) : Option Int :=
  let st0 : Int := if st < 0 then 0 else st
  lookupTransition (inputIndex a b) st0.toNat

/-- The `// check rotation` switch-case of `getStatus`, applied after the
new state `st1` has been stored: the forward sentinel `-1` adds
`stepWidth` to the counter through `setCount`, the reverse sentinel `-2`
subtracts it, anything else leaves the counter alone.  The sum
`getCount() ± stepWidth` is `int + unsigned int`, computed modulo 2^32
and converted back to `int` at `setCount`'s parameter, i.e. `int32`. -/
def moveStep (e1 : RotaryEncoder) (st1 : Int) : Nat × RotaryEncoder :=
  if st1 = -1 then
    (Forward, e1.setCount (int32 (e1.getCount + (e1.stepWidth : Int))))
  else if st1 = -2 then
    (Reverse, e1.setCount (int32 (e1.getCount - (e1.stepWidth : Int))))
  else
    (statusNone, e1)

/-- The `// Check switch` block of `getStatus`: edge detection, press
timestamping and the long-press timeout test. -/
def switchUpdate (e : RotaryEncoder) (s : Bool) (now : Nat) (result : Nat) :
    Nat × RotaryEncoder :=
  if s ≠ e.switchStatus then
    if s then
      (result ||| ButtonPressed, { e with timePressed := now, switchStatus := s })
    else
      (result ||| ButtonReleased, { e with timePressed := 0, switchStatus := s })
  else
    if s = true ∧ e.timePressed ≠ 0 ∧ e.timeout ≠ 0 ∧
        usub32 now e.timePressed > e.timeout then
      (result ||| ButtonLongPressed, { e with timePressed := 0 })
    else
      (result, e)

/-- `RotaryEncoder::getStatus` for one poll.  Inputs: the phase levels
`a`, `b`, the raw switch level `sRaw` (ignored when the switch pin is
disabled), and the current `millis()` value `now`.  Returns the result
flags, whether the settling `delay(10)` ran, and the new state; `none`
models the undefined out-of-bounds table read. -/
def getStatus (e : RotaryEncoder) (a b sRaw : Bool) (now : Nat) :
    Option (Nat × Bool × RotaryEncoder) :=
  let s := if 0 ≤ e.switchPin then sRaw else false
  match quadStep e.encoderStatus a b with
  | none => none
  | some st1 =>
    let m := moveStep { e with encoderStatus := st1 } st1
    let sw := switchUpdate m.2 s now m.1
    some (sw.1, sw.1 != sw.2.lastResult, { sw.2 with lastResult := sw.1 })

/-- A sequence of `getStatus` polls; each list element supplies one poll's
inputs `(a, b, sRaw, now)`.  Collects the results. -/
def pollSeq (e : RotaryEncoder) :
    List (Bool × Bool × Bool × Nat) → Option (List Nat × RotaryEncoder)
  | [] => some ([], e)
  | (a, b, s, n) :: rest =>
    match e.getStatus a b s n with
    | none => none
    | some (r, _, e') => (pollSeq e' rest).map fun p => (r :: p.1, p.2)

/-- `RotaryEncoder::waitForStatus`: polls until a non-`None` result.  The
list supplies the inputs of the successive polls; `none` is returned when
the list is exhausted before a non-`None` result (the C loop would still
be spinning) or on an undefined table read.  Collects all results. -/
def waitForStatus (e : RotaryEncoder) :
    List (Bool × Bool × Bool × Nat) → Option (List Nat × RotaryEncoder)
  | [] => none
  | (a, b, s, n) :: rest =>
    match e.getStatus a b s n with
    | none => none
    | some (r, _, e') =>
      if r = statusNone then
        (waitForStatus e' rest).map fun p => (r :: p.1, p.2)
      else
        some ([r], e')

end RotaryEncoder

/-- One call on the public interface of `RotaryEncoder`, with the inputs
the environment supplies during that call. -/
inductive Op where
  | begin : Op
  | endRun : Op
  | setSwitchTimeout (t : Nat) : Op
  | setRange (l u : Int) (s : Nat) : Op
  | setCount (v : Int) : Op
  | getCount : Op
  | getStatus (a b sRaw : Bool) (now : Nat) : Op
  | waitForStatus (inputs : List (Bool × Bool × Bool × Nat)) : Op

/-- Execute one public operation; collects the results of any polls it
performs. -/
def execOp (e : RotaryEncoder) : Op → Option (List Nat × RotaryEncoder)
  | .begin => some ([], e.begin)
  | .endRun => some ([], e.endRun)
  | .setSwitchTimeout t => some ([], e.setSwitchTimeout t)
  | .setRange l u s => some ([], e.setRange l u s)
  | .setCount v => some ([], e.setCount v)
  | .getCount => some ([], e)
  | .getStatus a b sRaw now =>
    (e.getStatus a b sRaw now).map fun p => ([p.1], p.2.2)
  | .waitForStatus inputs => e.waitForStatus inputs

/-- Execute a sequence of public operations from a given state. -/
def execs (e : RotaryEncoder) : List Op → Option (List Nat × RotaryEncoder)
  | [] => some ([], e)
  | op :: ops =>
    (execOp e op).bind fun p =>
      (execs p.2 ops).map fun q => (p.1 ++ q.1, q.2)

/-- An operation whose `setRange` bounds (if it is a `setRange`) are not
inverted; every other operation is unrestricted. -/
def Op.wellFormedRange : Op → Prop
  | .setRange l u _ => l ≤ u
  | _ => True

/-- The expected pattern of `ButtonLongPressed` flags over a sustained
press polled at the given `millis()` values, where `tT` is the press
timestamp plus the configured timeout: the flag fires exactly at the
first poll whose time strictly exceeds `tT` and at no later poll. -/
def longPressPattern (tT : Nat) : List Nat → List Bool
  | [] => []
  | n :: rest =>
    if tT < n then true :: rest.map (fun _ => false)
    else false :: longPressPattern tT rest

example : RotaryEncoder.quadStep 0 false false = some 0 := by decide
example : RotaryEncoder.quadStep 3 false false = some (-1) := by decide
example : RotaryEncoder.quadStep 7 false false = none := by decide
example :
    (RotaryEncoder.construct (-1)).getStatus false false false 0 =
      some (0, false, RotaryEncoder.construct (-1)) := by decide

namespace RotaryEncoder

@[simp] theorem setCount_switchPin (e : RotaryEncoder) (v : Int) :
    (e.setCount v).switchPin = e.switchPin := by
  unfold setCount; split <;> rfl

@[simp] theorem setCount_lowerLimit (e : RotaryEncoder) (v : Int) :
    (e.setCount v).lowerLimit = e.lowerLimit := by
  unfold setCount; split <;> rfl

@[simp] theorem setCount_upperLimit (e : RotaryEncoder) (v : Int) :
    (e.setCount v).upperLimit = e.upperLimit := by
  unfold setCount; split <;> rfl

@[simp] theorem setCount_stepWidth (e : RotaryEncoder) (v : Int) :
    (e.setCount v).stepWidth = e.stepWidth := by
  unfold setCount; split <;> rfl

@[simp] theorem setCount_encoderStatus (e : RotaryEncoder) (v : Int) :
    (e.setCount v).encoderStatus = e.encoderStatus := by
  unfold setCount; split <;> rfl

@[simp] theorem setCount_switchStatus (e : RotaryEncoder) (v : Int) :
    (e.setCount v).switchStatus = e.switchStatus := by
  unfold setCount; split <;> rfl

@[simp] theorem setCount_timeout (e : RotaryEncoder) (v : Int) :
    (e.setCount v).timeout = e.timeout := by
  unfold setCount; split <;> rfl

@[simp] theorem setCount_timePressed (e : RotaryEncoder) (v : Int) :
    (e.setCount v).timePressed = e.timePressed := by
  unfold setCount; split <;> rfl

@[simp] theorem setCount_lastResult (e : RotaryEncoder) (v : Int) :
    (e.setCount v).lastResult = e.lastResult := by
  unfold setCount; split <;> rfl

theorem setCount_count (e : RotaryEncoder) (v : Int) :
    (e.setCount v).count =
      if e.lowerLimit ≤ v ∧ v ≤ e.upperLimit then v else e.count := by
  unfold setCount; split <;> rfl

@[simp] theorem switchUpdate_snd_count (e : RotaryEncoder) (s : Bool) (now r : Nat) :
    (switchUpdate e s now r).2.count = e.count := by
  unfold switchUpdate; split
  · split <;> rfl
  · split <;> rfl

@[simp] theorem switchUpdate_snd_encoderStatus (e : RotaryEncoder) (s : Bool) (now r : Nat) :
    (switchUpdate e s now r).2.encoderStatus = e.encoderStatus := by
  unfold switchUpdate; split
  · split <;> rfl
  · split <;> rfl

@[simp] theorem switchUpdate_snd_switchPin (e : RotaryEncoder) (s : Bool) (now r : Nat) :
    (switchUpdate e s now r).2.switchPin = e.switchPin := by
  unfold switchUpdate; split
  · split <;> rfl
  · split <;> rfl

@[simp] theorem switchUpdate_snd_lowerLimit (e : RotaryEncoder) (s : Bool) (now r : Nat) :
    (switchUpdate e s now r).2.lowerLimit = e.lowerLimit := by
  unfold switchUpdate; split
  · split <;> rfl
  · split <;> rfl

@[simp] theorem switchUpdate_snd_upperLimit (e : RotaryEncoder) (s : Bool) (now r : Nat) :
    (switchUpdate e s now r).2.upperLimit = e.upperLimit := by
  unfold switchUpdate; split
  · split <;> rfl
  · split <;> rfl

@[simp] theorem switchUpdate_snd_stepWidth (e : RotaryEncoder) (s : Bool) (now r : Nat) :
    (switchUpdate e s now r).2.stepWidth = e.stepWidth := by
  unfold switchUpdate; split
  · split <;> rfl
  · split <;> rfl

@[simp] theorem switchUpdate_snd_timeout (e : RotaryEncoder) (s : Bool) (now r : Nat) :
    (switchUpdate e s now r).2.timeout = e.timeout := by
  unfold switchUpdate; split
  · split <;> rfl
  · split <;> rfl

@[simp] theorem switchUpdate_snd_lastResult (e : RotaryEncoder) (s : Bool) (now r : Nat) :
    (switchUpdate e s now r).2.lastResult = e.lastResult := by
  unfold switchUpdate; split
  · split <;> rfl
  · split <;> rfl

theorem switchUpdate_false (e : RotaryEncoder) (now r : Nat)
    (hs : e.switchStatus = false) :
    switchUpdate e false now r = (r, e) := by
  unfold switchUpdate
  rw [if_neg (by simp [hs]), if_neg (by simp)]

theorem switchUpdate_fst_or (e : RotaryEncoder) (s : Bool) (now : Nat) (r : Nat) :
    ∃ x, (switchUpdate e s now r).1 = r ||| x ∧
      (x = 0 ∨ x = ButtonPressed ∨ x = ButtonLongPressed ∨ x = ButtonReleased) := by
  unfold switchUpdate; split
  · split
    · exact ⟨ButtonPressed, rfl, by simp⟩
    · exact ⟨ButtonReleased, rfl, by simp⟩
  · split
    · exact ⟨ButtonLongPressed, rfl, by simp⟩
    · exact ⟨0, by simp, by simp⟩

theorem switchUpdate_noChange (e : RotaryEncoder) (s : Bool) (now : Nat) (r : Nat)
    (hs : e.switchStatus = s) (h : e.timePressed = 0 ∨ e.timeout = 0) :
    switchUpdate e s now r = (r, e) := by
  unfold switchUpdate
  rw [if_neg (by simp [hs])]
  rw [if_neg (by rintro ⟨-, h1, h2, -⟩; rcases h with h | h <;> simp_all)]

theorem inputIndex_lt (a b : Bool) : inputIndex a b < 4 := by
  cases a <;> cases b <;> decide

theorem lookupTransition_all :
    ∀ i < 4, ∀ j < 7, entryOK (lookupTransition i j) = true := by decide

theorem lookupTransition_ge7 (i j : Nat) (hj : 7 ≤ j) :
    lookupTransition i j = none := by
  unfold lookupTransition
  match i with
  | 0 => simp [transition]; omega
  | 1 => simp [transition]; omega
  | 2 => simp [transition]; omega
  | 3 => simp [transition]; omega
  | m + 4 =>
    have h : transition[m + 4]? = none :=
      List.getElem?_len_le (by simp [transition])
    simp [h]

theorem quadStep_range (st : Int) (a b : Bool) (st1 : Int)
    (hq : quadStep st a b = some st1) : -2 ≤ st1 ∧ st1 ≤ 6 := by
  unfold quadStep at hq
  by_cases h7 : (if st < 0 then 0 else st).toNat < 7
  · have h := lookupTransition_all _ (inputIndex_lt a b) _ h7
    rw [hq] at h
    simpa [entryOK] using h
  · rw [lookupTransition_ge7 _ _ (by omega)] at hq
    cases hq

theorem quadStep_isSome (st : Int) (a b : Bool) (h : st ≤ 6) :
    ∃ st1, quadStep st a b = some st1 := by
  have h7 : (if st < 0 then 0 else st).toNat < 7 := by split <;> omega
  have hall := lookupTransition_all _ (inputIndex_lt a b) _ h7
  unfold quadStep
  cases hc : lookupTransition (inputIndex a b) (if st < 0 then 0 else st).toNat with
  | none => rw [hc] at hall; simp [entryOK] at hall
  | some v => exact ⟨v, rfl⟩

theorem quadStep_neg (st : Int) (a b : Bool) (h : st < 0) :
    quadStep st a b = quadStep 0 a b := by
  unfold quadStep
  rw [if_pos h, if_neg (by omega)]

@[simp] theorem moveStep_snd_encoderStatus (e : RotaryEncoder) (st1 : Int) :
    (moveStep e st1).2.encoderStatus = e.encoderStatus := by
  unfold moveStep; split
  · simp
  · split <;> simp

@[simp] theorem moveStep_snd_switchPin (e : RotaryEncoder) (st1 : Int) :
    (moveStep e st1).2.switchPin = e.switchPin := by
  unfold moveStep; split
  · simp
  · split <;> simp

@[simp] theorem moveStep_snd_lowerLimit (e : RotaryEncoder) (st1 : Int) :
    (moveStep e st1).2.lowerLimit = e.lowerLimit := by
  unfold moveStep; split
  · simp
  · split <;> simp

@[simp] theorem moveStep_snd_upperLimit (e : RotaryEncoder) (st1 : Int) :
    (moveStep e st1).2.upperLimit = e.upperLimit := by
  unfold moveStep; split
  · simp
  · split <;> simp

@[simp] theorem moveStep_snd_stepWidth (e : RotaryEncoder) (st1 : Int) :
    (moveStep e st1).2.stepWidth = e.stepWidth := by
  unfold moveStep; split
  · simp
  · split <;> simp

@[simp] theorem moveStep_snd_switchStatus (e : RotaryEncoder) (st1 : Int) :
    (moveStep e st1).2.switchStatus = e.switchStatus := by
  unfold moveStep; split
  · simp
  · split <;> simp

@[simp] theorem moveStep_snd_timeout (e : RotaryEncoder) (st1 : Int) :
    (moveStep e st1).2.timeout = e.timeout := by
  unfold moveStep; split
  · simp
  · split <;> simp

@[simp] theorem moveStep_snd_timePressed (e : RotaryEncoder) (st1 : Int) :
    (moveStep e st1).2.timePressed = e.timePressed := by
  unfold moveStep; split
  · simp
  · split <;> simp

@[simp] theorem moveStep_snd_lastResult (e : RotaryEncoder) (st1 : Int) :
    (moveStep e st1).2.lastResult = e.lastResult := by
  unfold moveStep; split
  · simp
  · split <;> simp

theorem moveStep_fst_le (e : RotaryEncoder) (st1 : Int) :
    (moveStep e st1).1 ≤ 2 := by
  unfold moveStep; split
  · exact le_of_eq rfl |>.trans (by norm_num [Forward])
  · split
    · exact le_of_eq rfl
    · norm_num [statusNone]

theorem moveStep_count (e : RotaryEncoder) (st1 : Int) :
    (moveStep e st1).2.count = e.count ∨
      (e.lowerLimit ≤ (moveStep e st1).2.count ∧
        (moveStep e st1).2.count ≤ e.upperLimit) := by
  unfold moveStep; split
  · rw [setCount_count, getCount]; split
    · right; simpa using by omega
    · left; rfl
  · split
    · rw [setCount_count, getCount]; split
      · rename_i hcond; right; exact ⟨hcond.1, hcond.2⟩
      · left; rfl
    · left; rfl

theorem moveStep_other (e : RotaryEncoder) (st1 : Int)
    (h1 : st1 ≠ -1) (h2 : st1 ≠ -2) : moveStep e st1 = (statusNone, e) := by
  unfold moveStep
  rw [if_neg h1, if_neg h2]

theorem getStatus_eq (e : RotaryEncoder) (a b sRaw : Bool) (now : Nat) (st1 : Int)
    (hq : quadStep e.encoderStatus a b = some st1) :
    e.getStatus a b sRaw now =
      (let s := if 0 ≤ e.switchPin then sRaw else false
       let m := moveStep { e with encoderStatus := st1 } st1
       let sw := switchUpdate m.2 s now m.1
       some (sw.1, sw.1 != sw.2.lastResult, { sw.2 with lastResult := sw.1 })) := by
  unfold getStatus
  rw [hq]

theorem getStatus_none (e : RotaryEncoder) (a b sRaw : Bool) (now : Nat)
    (hq : quadStep e.encoderStatus a b = none) :
    e.getStatus a b sRaw now = none := by
  unfold getStatus
  rw [hq]

end RotaryEncoder

namespace RotaryEncoder

theorem getStatus_some_spec (e : RotaryEncoder) (a b sRaw : Bool) (now : Nat)
    (r : Nat) (d : Bool) (e' : RotaryEncoder)
    (h : e.getStatus a b sRaw now = some (r, d, e')) :
    (-2 ≤ e'.encoderStatus ∧ e'.encoderStatus ≤ 6) ∧
    e'.switchPin = e.switchPin ∧
    e'.lowerLimit = e.lowerLimit ∧
    e'.upperLimit = e.upperLimit ∧
    e'.stepWidth = e.stepWidth ∧
    e'.timeout = e.timeout ∧
    (e'.count = e.count ∨ (e.lowerLimit ≤ e'.count ∧ e'.count ≤ e.upperLimit)) ∧
    (e.switchPin < 0 → e.switchStatus = false → e'.switchStatus = false ∧ r ≤ 2) := by
  cases hq : quadStep e.encoderStatus a b with
  | none =>
    rw [getStatus_none e a b sRaw now hq] at h
    cases h
  | some st1 =>
    rw [getStatus_eq e a b sRaw now st1 hq] at h
    simp only [Option.some.injEq, Prod.mk.injEq] at h
    obtain ⟨hr, -, he'⟩ := h
    subst he'
    have hrange := quadStep_range e.encoderStatus a b st1 hq
    refine ⟨?_, ?_, ?_, ?_, ?_, ?_, ?_, ?_⟩
    · simpa using hrange
    · simp
    · simp
    · simp
    · simp
    · simp
    · have := moveStep_count { e with encoderStatus := st1 } st1
      simpa using this
    · intro hpin hss
      have hsfalse : (if 0 ≤ e.switchPin then sRaw else false) = false := by
        rw [if_neg (by omega)]
      rw [hsfalse] at hr ⊢
      rw [switchUpdate_false _ _ _ (by simpa using hss)] at hr ⊢
      subst hr
      exact ⟨by simpa using hss, moveStep_fst_le _ _⟩

end RotaryEncoder

namespace RotaryEncoder

@[simp] theorem setRange_switchPin (e : RotaryEncoder) (l u : Int) (s : Nat) :
    (e.setRange l u s).switchPin = e.switchPin := by
  simp only [setRange, getCount]; split_ifs <;> simp

@[simp] theorem setRange_encoderStatus (e : RotaryEncoder) (l u : Int) (s : Nat) :
    (e.setRange l u s).encoderStatus = e.encoderStatus := by
  simp only [setRange, getCount]; split_ifs <;> simp

@[simp] theorem setRange_switchStatus (e : RotaryEncoder) (l u : Int) (s : Nat) :
    (e.setRange l u s).switchStatus = e.switchStatus := by
  simp only [setRange, getCount]; split_ifs <;> simp

@[simp] theorem setRange_timeout (e : RotaryEncoder) (l u : Int) (s : Nat) :
    (e.setRange l u s).timeout = e.timeout := by
  simp only [setRange, getCount]; split_ifs <;> simp

@[simp] theorem setRange_timePressed (e : RotaryEncoder) (l u : Int) (s : Nat) :
    (e.setRange l u s).timePressed = e.timePressed := by
  simp only [setRange, getCount]; split_ifs <;> simp

@[simp] theorem setRange_lastResult (e : RotaryEncoder) (l u : Int) (s : Nat) :
    (e.setRange l u s).lastResult = e.lastResult := by
  simp only [setRange, getCount]; split_ifs <;> simp

@[simp] theorem setRange_lowerLimit (e : RotaryEncoder) (l u : Int) (s : Nat) :
    (e.setRange l u s).lowerLimit = l := by
  simp only [setRange, getCount]; split_ifs <;> simp

@[simp] theorem setRange_upperLimit (e : RotaryEncoder) (l u : Int) (s : Nat) :
    (e.setRange l u s).upperLimit = u := by
  simp only [setRange, getCount]; split_ifs <;> simp

@[simp] theorem setRange_stepWidth (e : RotaryEncoder) (l u : Int) (s : Nat) :
    (e.setRange l u s).stepWidth = s := by
  simp only [setRange, getCount]; split_ifs <;> simp

theorem setRange_count (e : RotaryEncoder) (l u : Int) (s : Nat) (h : l ≤ u) :
    (e.setRange l u s).count =
      if e.count < l then l else if u < e.count then u else e.count := by
  obtain ⟨sp, ll, ul, sw, c, es, ss, tmo, tp, lr⟩ := e
  simp only [setRange, getCount, setCount]
  split_ifs <;> (first | rfl | (dsimp only at *; omega))

theorem waitForStatus_preserve (P : RotaryEncoder → Prop) (Q : Nat → Prop)
    (hPoll : ∀ e a b s n r d e',
      e.getStatus a b s n = some (r, d, e') → P e → P e' ∧ Q r) :
    ∀ inputs (e : RotaryEncoder) rs ef,
      e.waitForStatus inputs = some (rs, ef) → P e →
        P ef ∧ ∀ r ∈ rs, Q r := by
  intro inputs
  induction inputs with
  | nil =>
    intro e rs ef h
    cases h
  | cons x rest ih =>
    obtain ⟨a, b, s, n⟩ := x
    intro e rs ef h hP
    simp only [waitForStatus] at h
    cases hg : e.getStatus a b s n with
    | none => rw [hg] at h; cases h
    | some p =>
      obtain ⟨r, d, e'⟩ := p
      rw [hg] at h
      dsimp only at h
      obtain ⟨hP', hQ⟩ := hPoll e a b s n r d e' hg hP
      by_cases hr : r = statusNone
      · rw [if_pos hr] at h
        cases hw : e'.waitForStatus rest with
        | none => rw [hw] at h; cases h
        | some q =>
          obtain ⟨rs', ef'⟩ := q
          rw [hw] at h
          simp only [Option.map_some', Option.some.injEq, Prod.mk.injEq] at h
          obtain ⟨hrs, hef⟩ := h
          obtain ⟨hPf, hQf⟩ := ih e' rs' ef' hw hP'
          subst hef
          constructor
          · exact hPf
          · intro x hx
            rw [← hrs] at hx
            rcases List.mem_cons.mp hx with hx | hx
            · exact hx ▸ hQ
            · exact hQf x hx
      · rw [if_neg hr] at h
        simp only [Option.some.injEq, Prod.mk.injEq] at h
        obtain ⟨hrs, hef⟩ := h
        subst hef
        refine ⟨hP', ?_⟩
        intro x hx
        rw [← hrs] at hx
        rcases List.mem_cons.mp hx with hx | hx
        · exact hx ▸ hQ
        · cases hx

theorem execs_preserve (P : RotaryEncoder → Prop) (Q : Nat → Prop) (W : Op → Prop)
    (hOp : ∀ e op rs e', W op → execOp e op = some (rs, e') → P e →
      P e' ∧ ∀ r ∈ rs, Q r) :
    ∀ ops (e : RotaryEncoder) rs ef,
      (∀ op ∈ ops, W op) → execs e ops = some (rs, ef) → P e →
        P ef ∧ ∀ r ∈ rs, Q r := by
  intro ops
  induction ops with
  | nil =>
    intro e rs ef hW h hP
    simp only [execs, Option.some.injEq, Prod.mk.injEq] at h
    obtain ⟨hrs, hef⟩ := h
    subst hef
    exact ⟨hP, by rw [← hrs]; intro x hx; cases hx⟩
  | cons op ops ih =>
    intro e rs ef hW h hP
    simp only [execs] at h
    cases hx : execOp e op with
    | none => rw [hx] at h; cases h
    | some p =>
      obtain ⟨rs1, e1⟩ := p
      rw [hx] at h
      simp only [Option.some_bind] at h
      cases hy : execs e1 ops with
      | none => rw [hy] at h; simp at h
      | some q =>
        obtain ⟨rs2, ef'⟩ := q
        rw [hy] at h
        simp only [Option.map_some', Option.some.injEq, Prod.mk.injEq] at h
        obtain ⟨hrs, hef⟩ := h
        subst hef
        obtain ⟨hP1, hQ1⟩ := hOp e op rs1 e1 (hW op (by simp)) hx hP
        obtain ⟨hP2, hQ2⟩ := ih e1 rs2 ef' (fun o ho => hW o (by simp [ho])) hy hP1
        refine ⟨hP2, ?_⟩
        intro x hx2
        rw [← hrs] at hx2
        rcases List.mem_append.mp hx2 with hx2 | hx2
        · exact hQ1 x hx2
        · exact hQ2 x hx2

end RotaryEncoder

/-- C5: `setCount v` is a silent no-op (the whole state, counter included,
is unchanged) whenever `v < lowerLimit` or `v > upperLimit`, and sets the
counter to exactly `v` — modifying no other field — whenever
`lowerLimit ≤ v ≤ upperLimit`. -/
theorem c5_setCount_boundary (e : RotaryEncoder) (v : Int) :
    (v < e.lowerLimit ∨ e.upperLimit < v → e.setCount v = e) ∧
    (e.lowerLimit ≤ v ∧ v ≤ e.upperLimit → e.setCount v = { e with count := v }) := by
  constructor
  · intro h
    unfold RotaryEncoder.setCount
    rw [if_neg (by omega)]
  · intro h
    unfold RotaryEncoder.setCount
    rw [if_pos h]

/-- Witness for C5 at a concrete state: out-of-range argument 11 is
rejected, in-range argument 5 is stored. -/
theorem c5_setCount_boundary_witness :
    (RotaryEncoder.construct (-1)).setCount 11 = RotaryEncoder.construct (-1) ∧
    (RotaryEncoder.construct (-1)).setCount 5 =
      { RotaryEncoder.construct (-1) with count := 5 } :=
  ⟨(c5_setCount_boundary (RotaryEncoder.construct (-1)) 11).1 (by right; decide),
   (c5_setCount_boundary (RotaryEncoder.construct (-1)) 5).2 (by constructor <;> decide)⟩

/-- C6: `setRange l u s` with `l ≤ u` installs the new limits and step
width and reclamps the current counter into `[l, u]`: a count below `l`
becomes `l`, a count above `u` becomes `u`, a count inside is unchanged. -/
theorem c6_setRange_reclamps (e : RotaryEncoder) (l u : Int) (s : Nat)
    (h : l ≤ u) :
    (e.setRange l u s).lowerLimit = l ∧
    (e.setRange l u s).upperLimit = u ∧
    (e.setRange l u s).stepWidth = s ∧
    (e.setRange l u s).count =
      if e.count < l then l else if u < e.count then u else e.count :=
  ⟨RotaryEncoder.setRange_lowerLimit e l u s,
   RotaryEncoder.setRange_upperLimit e l u s,
   RotaryEncoder.setRange_stepWidth e l u s,
   RotaryEncoder.setRange_count e l u s h⟩

/-- Witness for C6: from the constructed state (count 0), `setRange 3 8 2`
reclamps the counter up to the new lower limit 3. -/
theorem c6_setRange_reclamps_witness :
    ((RotaryEncoder.construct (-1)).setRange 3 8 2).lowerLimit = 3 ∧
    ((RotaryEncoder.construct (-1)).setRange 3 8 2).upperLimit = 8 ∧
    ((RotaryEncoder.construct (-1)).setRange 3 8 2).stepWidth = 2 ∧
    ((RotaryEncoder.construct (-1)).setRange 3 8 2).count =
      if (RotaryEncoder.construct (-1)).count < 3 then 3
      else if 8 < (RotaryEncoder.construct (-1)).count then 8
      else (RotaryEncoder.construct (-1)).count :=
  c6_setRange_reclamps (RotaryEncoder.construct (-1)) 3 8 2 (by decide)

/-- C9: `setRange l u s` with inverted bounds `l > u` still installs the
new limits and step width but leaves every other field — the counter in
particular — completely unchanged, because both reclamping `setCount`
calls reject their argument when `lowerLimit > upperLimit`. -/
theorem c9_setRange_inverted (e : RotaryEncoder) (l u : Int) (s : Nat)
    (h : u < l) :
    e.setRange l u s =
      { e with lowerLimit := l, upperLimit := u, stepWidth := s } := by
  obtain ⟨sp, ll, ul, sw, c, es, ss, tmo, tp, lr⟩ := e
  simp only [RotaryEncoder.setRange, RotaryEncoder.getCount, RotaryEncoder.setCount]
  split_ifs <;> (first | rfl | (exfalso; dsimp only at *; omega))

/-- Witness for C9: inverted range [5, 2] on a state whose count 0 lies
outside both bounds; the count is still untouched. -/
theorem c9_setRange_inverted_witness :
    (RotaryEncoder.construct (-1)).setRange 5 2 1 =
      { RotaryEncoder.construct (-1) with
          lowerLimit := 5, upperLimit := 2, stepWidth := 1 } :=
  c9_setRange_inverted (RotaryEncoder.construct (-1)) 5 2 1 (by decide)

/-- C3 counterexample: the reset in `getStatus` checks only
`encoderStatus < 0`, so the positive out-of-range state 7 is NOT
normalized to 0: the poll performs an out-of-bounds table read (modelled
as `none`), unlike the same poll from state 0. -/
theorem c3_counterexample :
    RotaryEncoder.getStatus
        { RotaryEncoder.construct (-1) with encoderStatus := 7 }
        false false false 0 = none ∧
    RotaryEncoder.getStatus
        { RotaryEncoder.construct (-1) with encoderStatus := 0 }
        false false false 0 ≠ none := by
  constructor
  · decide
  · decide

/-- C3 (amended): only a *negative* internal quadrature state is
normalized before the table lookup — a poll from any state below 0
behaves exactly as a poll from state 0; positive values greater than 6
are not normalized and reach the table lookup out of bounds. -/
theorem c3_negative_state_self_heals (e : RotaryEncoder) (st : Int)
    (a b sRaw : Bool) (now : Nat) (h : st < 0) :
    RotaryEncoder.getStatus { e with encoderStatus := st } a b sRaw now =
      RotaryEncoder.getStatus { e with encoderStatus := 0 } a b sRaw now := by
  obtain ⟨sp, ll, ul, sw, c, es, ss, tmo, tp, lr⟩ := e
  unfold RotaryEncoder.getStatus
  dsimp only
  rw [RotaryEncoder.quadStep_neg st a b h]

/-- Witness for C3's amended theorem at the concrete invalid state -5. -/
theorem c3_negative_state_self_heals_witness :
    RotaryEncoder.getStatus
        { RotaryEncoder.construct (-1) with encoderStatus := -5 }
        false false false 0 =
      RotaryEncoder.getStatus
        { RotaryEncoder.construct (-1) with encoderStatus := 0 }
        false false false 0 :=
  c3_negative_state_self_heals (RotaryEncoder.construct (-1)) (-5)
    false false false 0 (by decide)

/-- C4: starting from construction (counter 0, range [0, 10]) and along
every sequence of public operations whose `setRange` calls all satisfy
`lowerLimit ≤ upperLimit`, the invariant
`lowerLimit ≤ count ≤ upperLimit` holds after every operation (every
sequence of operations is quantified, so in particular every prefix). -/
theorem c4_count_within_limits (p : Int) (ops : List Op) (rs : List Nat)
    (ef : RotaryEncoder)
    (hW : ∀ op ∈ ops, op.wellFormedRange)
    (hx : execs (RotaryEncoder.construct p) ops = some (rs, ef)) :
    ef.lowerLimit ≤ ef.count ∧ ef.count ≤ ef.upperLimit := by
  have hPoll : ∀ (e : RotaryEncoder) a b s n r d e',
      e.getStatus a b s n = some (r, d, e') →
      (e.lowerLimit ≤ e.count ∧ e.count ≤ e.upperLimit) →
      (e'.lowerLimit ≤ e'.count ∧ e'.count ≤ e'.upperLimit) ∧ True := by
    intro e a b s n r d e' hg hP
    obtain ⟨-, -, hll, hul, -, -, hcnt, -⟩ :=
      RotaryEncoder.getStatus_some_spec e a b s n r d e' hg
    rw [hll, hul]
    rcases hcnt with hc | hc
    · rw [hc]; exact ⟨hP, trivial⟩
    · exact ⟨hc, trivial⟩
  have hOp : ∀ (e : RotaryEncoder) op rs1 e', op.wellFormedRange →
      execOp e op = some (rs1, e') →
      (e.lowerLimit ≤ e.count ∧ e.count ≤ e.upperLimit) →
      (e'.lowerLimit ≤ e'.count ∧ e'.count ≤ e'.upperLimit) ∧
        ∀ r ∈ rs1, True := by
    intro e op rs1 e' hwf hx hP
    cases op with
    | begin =>
      simp only [execOp, Option.some.injEq, Prod.mk.injEq] at hx
      rw [← hx.2]
      exact ⟨hP, fun r hr => trivial⟩
    | endRun =>
      simp only [execOp, Option.some.injEq, Prod.mk.injEq] at hx
      rw [← hx.2]
      exact ⟨hP, fun r hr => trivial⟩
    | setSwitchTimeout t =>
      simp only [execOp, Option.some.injEq, Prod.mk.injEq] at hx
      rw [← hx.2]
      exact ⟨hP, fun r hr => trivial⟩
    | setRange l u s =>
      simp only [execOp, Option.some.injEq, Prod.mk.injEq] at hx
      rw [← hx.2]
      have hlu : l ≤ u := hwf
      refine ⟨?_, fun r hr => trivial⟩
      rw [RotaryEncoder.setRange_lowerLimit, RotaryEncoder.setRange_upperLimit,
        RotaryEncoder.setRange_count e l u s hlu]
      split_ifs <;> omega
    | setCount v =>
      simp only [execOp, Option.some.injEq, Prod.mk.injEq] at hx
      rw [← hx.2]
      refine ⟨?_, fun r hr => trivial⟩
      rw [RotaryEncoder.setCount_lowerLimit, RotaryEncoder.setCount_upperLimit,
        RotaryEncoder.setCount_count]
      split_ifs <;> omega
    | getCount =>
      simp only [execOp, Option.some.injEq, Prod.mk.injEq] at hx
      rw [← hx.2]
      exact ⟨hP, fun r hr => trivial⟩
    | getStatus a b sRaw now =>
      simp only [execOp] at hx
      cases hg : e.getStatus a b sRaw now with
      | none => rw [hg] at hx; cases hx
      | some q =>
        obtain ⟨r, d, e''⟩ := q
        rw [hg] at hx
        simp only [Option.map_some', Option.some.injEq, Prod.mk.injEq] at hx
        rw [← hx.2]
        exact ⟨(hPoll e a b sRaw now r d e'' hg hP).1, fun r hr => trivial⟩
    | waitForStatus inputs =>
      simp only [execOp] at hx
      exact RotaryEncoder.waitForStatus_preserve _ _ hPoll inputs e rs1 e' hx hP
  have := RotaryEncoder.execs_preserve _ _ Op.wellFormedRange hOp ops
    (RotaryEncoder.construct p) rs ef hW hx
    (by refine ⟨?_, ?_⟩ <;> norm_num [RotaryEncoder.construct])
  exact this.1

/-- Witness for C4: a concrete run (setCount 3 then one poll with input
(1,0)) from a switchless encoder ends with count 3 inside [0, 10]. -/
theorem c4_count_within_limits_witness :
    ({ switchPin := -1, lowerLimit := 0, upperLimit := 10, stepWidth := 1,
       count := 3, encoderStatus := 1, switchStatus := false, timeout := 0,
       timePressed := 0, lastResult := 0 } : RotaryEncoder).lowerLimit ≤
      ({ switchPin := -1, lowerLimit := 0, upperLimit := 10, stepWidth := 1,
         count := 3, encoderStatus := 1, switchStatus := false, timeout := 0,
         timePressed := 0, lastResult := 0 } : RotaryEncoder).count ∧
    ({ switchPin := -1, lowerLimit := 0, upperLimit := 10, stepWidth := 1,
       count := 3, encoderStatus := 1, switchStatus := false, timeout := 0,
       timePressed := 0, lastResult := 0 } : RotaryEncoder).count ≤
      ({ switchPin := -1, lowerLimit := 0, upperLimit := 10, stepWidth := 1,
         count := 3, encoderStatus := 1, switchStatus := false, timeout := 0,
         timePressed := 0, lastResult := 0 } : RotaryEncoder).upperLimit :=
  c4_count_within_limits (-1)
    [Op.setCount 3, Op.getStatus true false false 0] [0]
    { switchPin := -1, lowerLimit := 0, upperLimit := 10, stepWidth := 1,
      count := 3, encoderStatus := 1, switchStatus := false, timeout := 0,
      timePressed := 0, lastResult := 0 }
    (by intro op hop
        rcases List.mem_cons.mp hop with rfl | hop
        · trivial
        rcases List.mem_cons.mp hop with rfl | hop
        · trivial
        cases hop)
    (by decide)

namespace RotaryEncoder

theorem testBit_false_of_le_two (r : Nat) (h : r ≤ 2) (i : Nat) (hi : 2 ≤ i) :
    r.testBit i = false :=
  Nat.testBit_eq_false_of_lt
    (lt_of_le_of_lt h
      (lt_of_lt_of_le (by norm_num)
        (Nat.pow_le_pow_right (by norm_num) hi)))

theorem getStatus_ne_none (e : RotaryEncoder) (a b sRaw : Bool) (now : Nat)
    (h : e.encoderStatus ≤ 6) :
    e.getStatus a b sRaw now ≠ none := by
  obtain ⟨st1, hq⟩ := quadStep_isSome e.encoderStatus a b h
  rw [getStatus_eq e a b sRaw now st1 hq]
  simp

end RotaryEncoder

/-- C8: with the switch pin disabled (constructed with the sentinel -1),
no `getStatus` or `waitForStatus` poll along any sequence of public
operations ever returns a result containing `ButtonPressed` (bit 2),
`ButtonLongPressed` (bit 3) or `ButtonReleased` (bit 4): the poll
proceeds with the fixed default level `LOW` instead of sampling. -/
theorem c8_disabled_switch_no_button_flags (ops : List Op) (rs : List Nat)
    (ef : RotaryEncoder)
    (hx : execs (RotaryEncoder.construct (-1)) ops = some (rs, ef)) :
    ∀ r ∈ rs, r.testBit 2 = false ∧ r.testBit 3 = false ∧ r.testBit 4 = false := by
  have hPoll : ∀ (e : RotaryEncoder) a b s n r d e',
      e.getStatus a b s n = some (r, d, e') →
      (e.switchPin < 0 ∧ e.switchStatus = false) →
      (e'.switchPin < 0 ∧ e'.switchStatus = false) ∧ r ≤ 2 := by
    intro e a b s n r d e' hg hP
    obtain ⟨-, hsp, -, -, -, -, -, hsw⟩ :=
      RotaryEncoder.getStatus_some_spec e a b s n r d e' hg
    obtain ⟨hss, hr⟩ := hsw hP.1 hP.2
    exact ⟨⟨by rw [hsp]; exact hP.1, hss⟩, hr⟩
  have hOp : ∀ (e : RotaryEncoder) op rs1 e', True →
      execOp e op = some (rs1, e') →
      (e.switchPin < 0 ∧ e.switchStatus = false) →
      (e'.switchPin < 0 ∧ e'.switchStatus = false) ∧ ∀ r ∈ rs1, r ≤ 2 := by
    rintro e op rs1 e' - hx hP
    cases op with
    | begin =>
      simp only [execOp, Option.some.injEq, Prod.mk.injEq] at hx
      rw [← hx.2]
      exact ⟨⟨hP.1, rfl⟩, by rw [← hx.1]; intro r hr; cases hr⟩
    | endRun =>
      simp only [execOp, Option.some.injEq, Prod.mk.injEq] at hx
      rw [← hx.2]
      exact ⟨hP, by rw [← hx.1]; intro r hr; cases hr⟩
    | setSwitchTimeout t =>
      simp only [execOp, Option.some.injEq, Prod.mk.injEq] at hx
      rw [← hx.2]
      exact ⟨hP, by rw [← hx.1]; intro r hr; cases hr⟩
    | setRange l u s =>
      simp only [execOp, Option.some.injEq, Prod.mk.injEq] at hx
      rw [← hx.2]
      refine ⟨?_, by rw [← hx.1]; intro r hr; cases hr⟩
      rw [RotaryEncoder.setRange_switchPin, RotaryEncoder.setRange_switchStatus]
      exact hP
    | setCount v =>
      simp only [execOp, Option.some.injEq, Prod.mk.injEq] at hx
      rw [← hx.2]
      refine ⟨?_, by rw [← hx.1]; intro r hr; cases hr⟩
      rw [RotaryEncoder.setCount_switchPin, RotaryEncoder.setCount_switchStatus]
      exact hP
    | getCount =>
      simp only [execOp, Option.some.injEq, Prod.mk.injEq] at hx
      rw [← hx.2]
      exact ⟨hP, by rw [← hx.1]; intro r hr; cases hr⟩
    | getStatus a b sRaw now =>
      simp only [execOp] at hx
      cases hg : e.getStatus a b sRaw now with
      | none => rw [hg] at hx; cases hx
      | some q =>
        obtain ⟨r, d, e''⟩ := q
        rw [hg] at hx
        simp only [Option.map_some', Option.some.injEq, Prod.mk.injEq] at hx
        obtain ⟨hP', hr⟩ := hPoll e a b sRaw now r d e'' hg hP
        rw [← hx.2]
        refine ⟨hP', ?_⟩
        rw [← hx.1]
        intro x hxm
        rcases List.mem_cons.mp hxm with rfl | hxm
        · exact hr
        · cases hxm
    | waitForStatus inputs =>
      simp only [execOp] at hx
      exact RotaryEncoder.waitForStatus_preserve _ _ hPoll inputs e rs1 e' hx hP
  have hfin := RotaryEncoder.execs_preserve
    (fun e => e.switchPin < 0 ∧ e.switchStatus = false) (fun r => r ≤ 2)
    (fun _ => True) hOp ops (RotaryEncoder.construct (-1)) rs ef
    (fun _ _ => trivial) hx
    (by constructor
        · norm_num [RotaryEncoder.construct]
        · rfl)
  intro r hr
  have hle := hfin.2 r hr
  exact ⟨RotaryEncoder.testBit_false_of_le_two r hle 2 (by norm_num),
    RotaryEncoder.testBit_false_of_le_two r hle 3 (by norm_num),
    RotaryEncoder.testBit_false_of_le_two r hle 4 (by norm_num)⟩

/-- Witness for C8: one poll with the raw switch level held high still
reports no button flags because the pin is disabled. -/
theorem c8_disabled_switch_no_button_flags_witness :
    Nat.testBit 0 2 = false ∧ Nat.testBit 0 3 = false ∧
      Nat.testBit 0 4 = false :=
  c8_disabled_switch_no_button_flags [Op.getStatus false false true 5] [0]
    (RotaryEncoder.construct (-1)) (by decide) 0 (by decide)

/-- C10: along every sequence of public operations from construction, the
stored quadrature state stays in the set `{-2, ..., 6}` (every transition
table entry lies in this set), so the index used for the table lookup
after the negative-value reset is always within 0..6: a poll from any
reachable state never performs the out-of-bounds read. -/
theorem c10_encoder_state_in_range (p : Int) (ops : List Op) (rs : List Nat)
    (ef : RotaryEncoder)
    (hx : execs (RotaryEncoder.construct p) ops = some (rs, ef)) :
    (-2 ≤ ef.encoderStatus ∧ ef.encoderStatus ≤ 6) ∧
    (∀ a b sRaw : Bool, ∀ now : Nat, ef.getStatus a b sRaw now ≠ none) ∧
    (∀ row ∈ transition, ∀ v ∈ row, -2 ≤ v ∧ v ≤ 6) := by
  have hPoll : ∀ (e : RotaryEncoder) a b s n r d e',
      e.getStatus a b s n = some (r, d, e') →
      (-2 ≤ e.encoderStatus ∧ e.encoderStatus ≤ 6) →
      (-2 ≤ e'.encoderStatus ∧ e'.encoderStatus ≤ 6) ∧ True := by
    rintro e a b s n r d e' hg -
    obtain ⟨hrange, -⟩ := RotaryEncoder.getStatus_some_spec e a b s n r d e' hg
    exact ⟨hrange, trivial⟩
  have hOp : ∀ (e : RotaryEncoder) op rs1 e', True →
      execOp e op = some (rs1, e') →
      (-2 ≤ e.encoderStatus ∧ e.encoderStatus ≤ 6) →
      (-2 ≤ e'.encoderStatus ∧ e'.encoderStatus ≤ 6) ∧ ∀ r ∈ rs1, True := by
    rintro e op rs1 e' - hx hP
    cases op with
    | begin =>
      simp only [execOp, Option.some.injEq, Prod.mk.injEq] at hx
      rw [← hx.2]
      exact ⟨⟨by norm_num [RotaryEncoder.begin], by norm_num [RotaryEncoder.begin]⟩,
        fun r hr => trivial⟩
    | endRun =>
      simp only [execOp, Option.some.injEq, Prod.mk.injEq] at hx
      rw [← hx.2]
      exact ⟨hP, fun r hr => trivial⟩
    | setSwitchTimeout t =>
      simp only [execOp, Option.some.injEq, Prod.mk.injEq] at hx
      rw [← hx.2]
      exact ⟨hP, fun r hr => trivial⟩
    | setRange l u s =>
      simp only [execOp, Option.some.injEq, Prod.mk.injEq] at hx
      rw [← hx.2]
      refine ⟨?_, fun r hr => trivial⟩
      rw [RotaryEncoder.setRange_encoderStatus]
      exact hP
    | setCount v =>
      simp only [execOp, Option.some.injEq, Prod.mk.injEq] at hx
      rw [← hx.2]
      refine ⟨?_, fun r hr => trivial⟩
      rw [RotaryEncoder.setCount_encoderStatus]
      exact hP
    | getCount =>
      simp only [execOp, Option.some.injEq, Prod.mk.injEq] at hx
      rw [← hx.2]
      exact ⟨hP, fun r hr => trivial⟩
    | getStatus a b sRaw now =>
      simp only [execOp] at hx
      cases hg : e.getStatus a b sRaw now with
      | none => rw [hg] at hx; cases hx
      | some q =>
        obtain ⟨r, d, e''⟩ := q
        rw [hg] at hx
        simp only [Option.map_some', Option.some.injEq, Prod.mk.injEq] at hx
        rw [← hx.2]
        exact ⟨(hPoll e a b sRaw now r d e'' hg hP).1, fun r hr => trivial⟩
    | waitForStatus inputs =>
      simp only [execOp] at hx
      exact RotaryEncoder.waitForStatus_preserve _ _ hPoll inputs e rs1 e' hx hP
  have hfin := RotaryEncoder.execs_preserve
    (fun e => -2 ≤ e.encoderStatus ∧ e.encoderStatus ≤ 6) (fun _ => True)
    (fun _ => True) hOp ops (RotaryEncoder.construct p) rs ef
    (fun _ _ => trivial) hx
    (by constructor <;> norm_num [RotaryEncoder.construct])
  refine ⟨hfin.1, ?_, by decide⟩
  intro a b sRaw now
  exact RotaryEncoder.getStatus_ne_none ef a b sRaw now hfin.1.2

/-- Witness for C10 with the empty operation sequence from construction. -/
theorem c10_encoder_state_in_range_witness :
    (-2 ≤ (RotaryEncoder.construct 2).encoderStatus ∧
      (RotaryEncoder.construct 2).encoderStatus ≤ 6) ∧
    (∀ a b sRaw : Bool, ∀ now : Nat,
      (RotaryEncoder.construct 2).getStatus a b sRaw now ≠ none) ∧
    (∀ row ∈ transition, ∀ v ∈ row, -2 ≤ v ∧ v ≤ 6) :=
  c10_encoder_state_in_range 2 [] [] (RotaryEncoder.construct 2) rfl

namespace RotaryEncoder

theorem switchUpdate_fst_testBit (e : RotaryEncoder) (s : Bool) (now r : Nat)
    (i : Nat) (hi : i ≤ 1) :
    ((switchUpdate e s now r).1).testBit i = r.testBit i := by
  obtain ⟨x, hx, hcase⟩ := switchUpdate_fst_or e s now r
  have hxbit : x.testBit i = false := by
    interval_cases i <;> rcases hcase with rfl | rfl | rfl | rfl <;> decide
  rw [hx, Nat.testBit_lor, hxbit, Bool.or_false]

theorem getStatus_move_spec (e : RotaryEncoder) (a b sRaw : Bool) (now : Nat)
    (st1 : Int) (hq : quadStep e.encoderStatus a b = some st1) :
    ∃ r d e', e.getStatus a b sRaw now = some (r, d, e') ∧
      e'.encoderStatus = st1 ∧
      e'.lowerLimit = e.lowerLimit ∧
      e'.upperLimit = e.upperLimit ∧
      e'.stepWidth = e.stepWidth ∧
      (st1 ≠ -1 → st1 ≠ -2 →
        r.testBit 0 = false ∧ r.testBit 1 = false ∧ e'.count = e.count) ∧
      (st1 = -1 → r.testBit 0 = true ∧ r.testBit 1 = false ∧
        e'.count =
          if e.lowerLimit ≤ int32 (e.count + (e.stepWidth : Int)) ∧
              int32 (e.count + (e.stepWidth : Int)) ≤ e.upperLimit
          then int32 (e.count + (e.stepWidth : Int)) else e.count) ∧
      (st1 = -2 → r.testBit 0 = false ∧ r.testBit 1 = true ∧
        e'.count =
          if e.lowerLimit ≤ int32 (e.count - (e.stepWidth : Int)) ∧
              int32 (e.count - (e.stepWidth : Int)) ≤ e.upperLimit
          then int32 (e.count - (e.stepWidth : Int)) else e.count) := by
  rw [getStatus_eq e a b sRaw now st1 hq]
  refine ⟨_, _, _, rfl, ?_, ?_, ?_, ?_, ?_, ?_, ?_⟩
  · simp
  · simp
  · simp
  · simp
  · intro h1 h2
    rw [moveStep_other _ _ h1 h2]
    refine ⟨?_, ?_, ?_⟩
    · rw [switchUpdate_fst_testBit _ _ _ _ 0 (by norm_num)]
      show Nat.testBit statusNone 0 = false
      decide
    · rw [switchUpdate_fst_testBit _ _ _ _ 1 (by norm_num)]
      show Nat.testBit statusNone 1 = false
      decide
    · simp
  · rintro rfl
    have hms : moveStep { e with encoderStatus := (-1 : Int) } (-1) =
        (Forward, setCount { e with encoderStatus := (-1 : Int) }
          (int32 (e.count + (e.stepWidth : Int)))) := by
      simp [moveStep, getCount]
    rw [hms]
    refine ⟨?_, ?_, ?_⟩
    · rw [switchUpdate_fst_testBit _ _ _ _ 0 (by norm_num)]
      show Nat.testBit Forward 0 = true
      decide
    · rw [switchUpdate_fst_testBit _ _ _ _ 1 (by norm_num)]
      show Nat.testBit Forward 1 = false
      decide
    · simp [setCount_count]
  · rintro rfl
    have hms : moveStep { e with encoderStatus := (-2 : Int) } (-2) =
        (Reverse, setCount { e with encoderStatus := (-2 : Int) }
          (int32 (e.count - (e.stepWidth : Int)))) := by
      simp [moveStep, getCount]
    rw [hms]
    refine ⟨?_, ?_, ?_⟩
    · rw [switchUpdate_fst_testBit _ _ _ _ 0 (by norm_num)]
      show Nat.testBit Reverse 0 = false
      decide
    · rw [switchUpdate_fst_testBit _ _ _ _ 1 (by norm_num)]
      show Nat.testBit Reverse 1 = true
      decide
    · simp [setCount_count]

end RotaryEncoder

namespace RotaryEncoder

theorem int32_eq_self (n : Int) (h1 : -(2 ^ 31) ≤ n) (h2 : n < 2 ^ 31) :
    int32 n = n := by
  unfold int32
  omega

theorem fwdCycle_spec (e : RotaryEncoder) (s : Bool) (n1 n2 n3 n4 n5 : Nat)
    (hst : e.encoderStatus = 0) (hlo : e.lowerLimit ≤ e.count)
    (hof : -(2 ^ 31) ≤ e.count + (e.stepWidth : Int) ∧
      e.count + (e.stepWidth : Int) < 2 ^ 31) :
    ∃ rs ef, pollSeq e
        [(false, false, s, n1), (true, false, s, n2), (true, true, s, n3),
         (false, true, s, n4), (false, false, s, n5)] = some (rs, ef) ∧
      rs.map (fun r => r.testBit 0) = [false, false, false, false, true] ∧
      rs.map (fun r => r.testBit 1) = [false, false, false, false, false] ∧
      ef.count = if e.count + (e.stepWidth : Int) ≤ e.upperLimit
                 then e.count + (e.stepWidth : Int) else e.count := by
  have hq1 : quadStep e.encoderStatus false false = some 0 := by rw [hst]; decide
  obtain ⟨r1, d1, e1, hg1, hes1, hll1, hul1, hsw1, hn1, -, -⟩ :=
    getStatus_move_spec e false false s n1 0 hq1
  obtain ⟨hb10, hb11, hc1⟩ := hn1 (by decide) (by decide)
  have hq2 : quadStep e1.encoderStatus true false = some 1 := by rw [hes1]; decide
  obtain ⟨r2, d2, e2, hg2, hes2, hll2, hul2, hsw2, hn2, -, -⟩ :=
    getStatus_move_spec e1 true false s n2 1 hq2
  obtain ⟨hb20, hb21, hc2⟩ := hn2 (by decide) (by decide)
  have hq3 : quadStep e2.encoderStatus true true = some 2 := by rw [hes2]; decide
  obtain ⟨r3, d3, e3, hg3, hes3, hll3, hul3, hsw3, hn3, -, -⟩ :=
    getStatus_move_spec e2 true true s n3 2 hq3
  obtain ⟨hb30, hb31, hc3⟩ := hn3 (by decide) (by decide)
  have hq4 : quadStep e3.encoderStatus false true = some 3 := by rw [hes3]; decide
  obtain ⟨r4, d4, e4, hg4, hes4, hll4, hul4, hsw4, hn4, -, -⟩ :=
    getStatus_move_spec e3 false true s n4 3 hq4
  obtain ⟨hb40, hb41, hc4⟩ := hn4 (by decide) (by decide)
  have hq5 : quadStep e4.encoderStatus false false = some (-1) := by rw [hes4]; decide
  obtain ⟨r5, d5, e5, hg5, hes5, hll5, hul5, hsw5, -, hfw, -⟩ :=
    getStatus_move_spec e4 false false s n5 (-1) hq5
  obtain ⟨hb50, hb51, hc5⟩ := hfw rfl
  refine ⟨[r1, r2, r3, r4, r5], e5, ?_, ?_, ?_, ?_⟩
  · simp only [pollSeq, hg1, hg2, hg3, hg4, hg5, Option.map_some']
  · simp only [List.map_cons, List.map_nil, hb10, hb20, hb30, hb40, hb50]
  · simp only [List.map_cons, List.map_nil, hb11, hb21, hb31, hb41, hb51]
  · rw [hc5, hc4, hc3, hc2, hc1, hll4, hll3, hll2, hll1, hul4, hul3, hul2,
      hul1, hsw4, hsw3, hsw2, hsw1, int32_eq_self _ hof.1 hof.2]
    have hiff : (e.lowerLimit ≤ e.count + (e.stepWidth : Int) ∧
        e.count + (e.stepWidth : Int) ≤ e.upperLimit) ↔
        e.count + (e.stepWidth : Int) ≤ e.upperLimit := by
      constructor
      · exact fun h => h.2
      · intro h; exact ⟨by omega, h⟩
    simp only [hiff]

theorem revCycle_spec (e : RotaryEncoder) (s : Bool) (n1 n2 n3 n4 n5 : Nat)
    (hst : e.encoderStatus = 0) (hhi : e.count ≤ e.upperLimit)
    (hof : -(2 ^ 31) ≤ e.count - (e.stepWidth : Int) ∧
      e.count - (e.stepWidth : Int) < 2 ^ 31) :
    ∃ rs ef, pollSeq e
        [(false, false, s, n1), (false, true, s, n2), (true, true, s, n3),
         (true, false, s, n4), (false, false, s, n5)] = some (rs, ef) ∧
      rs.map (fun r => r.testBit 1) = [false, false, false, false, true] ∧
      rs.map (fun r => r.testBit 0) = [false, false, false, false, false] ∧
      ef.count = if e.lowerLimit ≤ e.count - (e.stepWidth : Int)
                 then e.count - (e.stepWidth : Int) else e.count := by
  have hq1 : quadStep e.encoderStatus false false = some 0 := by rw [hst]; decide
  obtain ⟨r1, d1, e1, hg1, hes1, hll1, hul1, hsw1, hn1, -, -⟩ :=
    getStatus_move_spec e false false s n1 0 hq1
  obtain ⟨hb10, hb11, hc1⟩ := hn1 (by decide) (by decide)
  have hq2 : quadStep e1.encoderStatus false true = some 4 := by rw [hes1]; decide
  obtain ⟨r2, d2, e2, hg2, hes2, hll2, hul2, hsw2, hn2, -, -⟩ :=
    getStatus_move_spec e1 false true s n2 4 hq2
  obtain ⟨hb20, hb21, hc2⟩ := hn2 (by decide) (by decide)
  have hq3 : quadStep e2.encoderStatus true true = some 5 := by rw [hes2]; decide
  obtain ⟨r3, d3, e3, hg3, hes3, hll3, hul3, hsw3, hn3, -, -⟩ :=
    getStatus_move_spec e2 true true s n3 5 hq3
  obtain ⟨hb30, hb31, hc3⟩ := hn3 (by decide) (by decide)
  have hq4 : quadStep e3.encoderStatus true false = some 6 := by rw [hes3]; decide
  obtain ⟨r4, d4, e4, hg4, hes4, hll4, hul4, hsw4, hn4, -, -⟩ :=
    getStatus_move_spec e3 true false s n4 6 hq4
  obtain ⟨hb40, hb41, hc4⟩ := hn4 (by decide) (by decide)
  have hq5 : quadStep e4.encoderStatus false false = some (-2) := by rw [hes4]; decide
  obtain ⟨r5, d5, e5, hg5, hes5, hll5, hul5, hsw5, -, -, hrv⟩ :=
    getStatus_move_spec e4 false false s n5 (-2) hq5
  obtain ⟨hb50, hb51, hc5⟩ := hrv rfl
  refine ⟨[r1, r2, r3, r4, r5], e5, ?_, ?_, ?_, ?_⟩
  · simp only [pollSeq, hg1, hg2, hg3, hg4, hg5, Option.map_some']
  · simp only [List.map_cons, List.map_nil, hb11, hb21, hb31, hb41, hb51]
  · simp only [List.map_cons, List.map_nil, hb10, hb20, hb30, hb40, hb50]
  · rw [hc5, hc4, hc3, hc2, hc1, hll4, hll3, hll2, hll1, hul4, hul3, hul2,
      hul1, hsw4, hsw3, hsw2, hsw1, int32_eq_self _ hof.1 hof.2]
    have hiff : (e.lowerLimit ≤ e.count - (e.stepWidth : Int) ∧
        e.count - (e.stepWidth : Int) ≤ e.upperLimit) ↔
        e.lowerLimit ≤ e.count - (e.stepWidth : Int) := by
      constructor
      · exact fun h => h.1
      · intro h; exact ⟨h, by omega⟩
    simp only [hiff]

end RotaryEncoder

/-- C1 counterexample to the claim as stated: the counter update
`setCount(getCount() + stepWidth)` is `int + unsigned int`, computed
modulo 2^32 and converted back to `int`.  At count = 2^31 - 1 (INT_MAX),
stepWidth = 1 and limits [-2^31, 2^31 - 1] (a state reachable through
`setRange`/`setCount` with representable arguments), the new value
2^31 would exceed `upperLimit`, so the claim demands a silently rejected
write with the counter unchanged — but the code wraps the sum to
-2^31 (INT_MIN), which passes `setCount`'s bounds check and is stored:
after the forward cycle the counter is -2^31, not 2^31 - 1. -/
theorem c1_counterexample :
    RotaryEncoder.pollSeq
        { RotaryEncoder.construct (-1) with
            lowerLimit := -(2 ^ 31), upperLimit := 2 ^ 31 - 1,
            count := 2 ^ 31 - 1 }
        [(false, false, false, 1), (true, false, false, 2),
         (true, true, false, 3), (false, true, false, 4),
         (false, false, false, 5)] =
      some ([0, 0, 0, 0, 1],
        { RotaryEncoder.construct (-1) with
            lowerLimit := -(2 ^ 31), upperLimit := 2 ^ 31 - 1,
            count := -(2 ^ 31), encoderStatus := -1, lastResult := 1 }) ∧
    (-(2 ^ 31) : Int) ≠ 2 ^ 31 - 1 ∧
    (-(2 ^ 31) : Int) ≠ 2 ^ 31 - 1 + 1 :=
  ⟨by decide, by decide, by decide⟩

/-- C1 (amended): from quadrature state 0, with the switch input held
constant, the forward input cycle (0,0),(1,0),(1,1),(0,1),(0,0) over
five polls produces exactly one result containing `Forward` (and none
containing `Reverse`), and — provided `count + stepWidth` does not
overflow the 32-bit `int` range, i.e. -2^31 ≤ count + stepWidth < 2^31 —
the counter ends at `count + stepWidth` unless that value would exceed
`upperLimit`, in which case the write is silently rejected and the
counter is unchanged; symmetrically the mirrored reverse cycle
(0,0),(0,1),(1,1),(1,0),(0,0) produces exactly one `Reverse`, with the
non-overflowing `-stepWidth` write rejected below `lowerLimit`.  (On
overflow the `int + unsigned int` sum wraps modulo 2^32 and the wrapped
value may pass the bounds check and be stored, per `c1_counterexample`.) -/
theorem c1_quadrature_cycle (e : RotaryEncoder) (s : Bool)
    (n1 n2 n3 n4 n5 m1 m2 m3 m4 m5 : Nat)
    (hst : e.encoderStatus = 0)
    (hlo : e.lowerLimit ≤ e.count) (hhi : e.count ≤ e.upperLimit)
    (hofAdd : -(2 ^ 31) ≤ e.count + (e.stepWidth : Int) ∧
      e.count + (e.stepWidth : Int) < 2 ^ 31)
    (hofSub : -(2 ^ 31) ≤ e.count - (e.stepWidth : Int) ∧
      e.count - (e.stepWidth : Int) < 2 ^ 31) :
    (∃ rs ef, RotaryEncoder.pollSeq e
        [(false, false, s, n1), (true, false, s, n2), (true, true, s, n3),
         (false, true, s, n4), (false, false, s, n5)] = some (rs, ef) ∧
      rs.map (fun r => r.testBit 0) = [false, false, false, false, true] ∧
      rs.map (fun r => r.testBit 1) = [false, false, false, false, false] ∧
      ef.count = if e.count + (e.stepWidth : Int) ≤ e.upperLimit
                 then e.count + (e.stepWidth : Int) else e.count) ∧
    (∃ rs ef, RotaryEncoder.pollSeq e
        [(false, false, s, m1), (false, true, s, m2), (true, true, s, m3),
         (true, false, s, m4), (false, false, s, m5)] = some (rs, ef) ∧
      rs.map (fun r => r.testBit 1) = [false, false, false, false, true] ∧
      rs.map (fun r => r.testBit 0) = [false, false, false, false, false] ∧
      ef.count = if e.lowerLimit ≤ e.count - (e.stepWidth : Int)
                 then e.count - (e.stepWidth : Int) else e.count) :=
  ⟨RotaryEncoder.fwdCycle_spec e s n1 n2 n3 n4 n5 hst hlo hofAdd,
   RotaryEncoder.revCycle_spec e s m1 m2 m3 m4 m5 hst hhi hofSub⟩

/-- Witness for C1: the constructed encoder (count 0, range [0, 10],
step 1) at concrete poll times. -/
theorem c1_quadrature_cycle_witness :
    (∃ rs ef, RotaryEncoder.pollSeq (RotaryEncoder.construct (-1))
        [(false, false, false, 1), (true, false, false, 2), (true, true, false, 3),
         (false, true, false, 4), (false, false, false, 5)] = some (rs, ef) ∧
      rs.map (fun r => r.testBit 0) = [false, false, false, false, true] ∧
      rs.map (fun r => r.testBit 1) = [false, false, false, false, false] ∧
      ef.count = if (RotaryEncoder.construct (-1)).count +
            ((RotaryEncoder.construct (-1)).stepWidth : Int) ≤
            (RotaryEncoder.construct (-1)).upperLimit
        then (RotaryEncoder.construct (-1)).count +
            ((RotaryEncoder.construct (-1)).stepWidth : Int)
        else (RotaryEncoder.construct (-1)).count) ∧
    (∃ rs ef, RotaryEncoder.pollSeq (RotaryEncoder.construct (-1))
        [(false, false, false, 6), (false, true, false, 7), (true, true, false, 8),
         (true, false, false, 9), (false, false, false, 10)] = some (rs, ef) ∧
      rs.map (fun r => r.testBit 1) = [false, false, false, false, true] ∧
      rs.map (fun r => r.testBit 0) = [false, false, false, false, false] ∧
      ef.count = if (RotaryEncoder.construct (-1)).lowerLimit ≤
            (RotaryEncoder.construct (-1)).count -
            ((RotaryEncoder.construct (-1)).stepWidth : Int)
        then (RotaryEncoder.construct (-1)).count -
            ((RotaryEncoder.construct (-1)).stepWidth : Int)
        else (RotaryEncoder.construct (-1)).count) :=
  c1_quadrature_cycle (RotaryEncoder.construct (-1)) false
    1 2 3 4 5 6 7 8 9 10 rfl (by decide) (by decide) (by decide) (by decide)

namespace RotaryEncoder

theorem getStatus_settled (e : RotaryEncoder) (a b sRaw : Bool) (now : Nat)
    (st1 : Int) (hq : quadStep e.encoderStatus a b = some st1)
    (hsw : (if 0 ≤ e.switchPin then sRaw else false) = e.switchStatus)
    (hset : e.timePressed = 0 ∨ e.timeout = 0) :
    e.getStatus a b sRaw now =
      some ((moveStep { e with encoderStatus := st1 } st1).1,
        (moveStep { e with encoderStatus := st1 } st1).1 != e.lastResult,
        { (moveStep { e with encoderStatus := st1 } st1).2 with
            lastResult := (moveStep { e with encoderStatus := st1 } st1).1 }) := by
  rw [getStatus_eq e a b sRaw now st1 hq]
  dsimp only
  rw [switchUpdate_noChange _ _ _ _ (by rw [moveStep_snd_switchStatus]; exact hsw.symm)
    (by rcases hset with h | h
        · left; rw [moveStep_snd_timePressed]; exact h
        · right; rw [moveStep_snd_timeout]; exact h)]
  rw [show ({ e with encoderStatus := st1 } : RotaryEncoder).lastResult
      = e.lastResult from rfl] at *
  rw [show (moveStep { e with encoderStatus := st1 } st1).2.lastResult
      = e.lastResult from by rw [moveStep_snd_lastResult]]

theorem quad_settles_all : ∀ a b : Bool, ∀ j : Fin 7,
    (((quadStep ((j : Nat) : Int) a b).bind fun st1 => quadStep st1 a b).elim
      false fun st2 => (!(st2 == (-1 : Int))) && (!(st2 == (-2 : Int))) &&
        (quadStep st2 a b == some st2)) = true := by decide

theorem quad_settles (a b : Bool) (st : Int) (h0 : 0 ≤ st) (h6 : st ≤ 6) :
    ∃ st1 st2, quadStep st a b = some st1 ∧ quadStep st1 a b = some st2 ∧
      st2 ≠ -1 ∧ st2 ≠ -2 ∧ quadStep st2 a b = some st2 := by
  have hj : st.toNat < 7 := by omega
  have h := quad_settles_all a b ⟨st.toNat, hj⟩
  rw [show (((⟨st.toNat, hj⟩ : Fin 7) : Nat) : Int) = st by
    simp only [Fin.val_mk]; omega] at h
  cases hq1 : quadStep st a b with
  | none => rw [hq1] at h; simp at h
  | some st1 =>
    rw [hq1] at h
    simp only [Option.some_bind] at h
    cases hq2 : quadStep st1 a b with
    | none => rw [hq2] at h; simp at h
    | some st2 =>
      rw [hq2] at h
      simp only [Option.elim_some, Bool.and_eq_true, Bool.not_eq_true',
        beq_eq_false_iff_ne, beq_iff_eq] at h
      exact ⟨st1, st2, rfl, hq2, h.1.1, h.1.2, h.2⟩

end RotaryEncoder

namespace RotaryEncoder

theorem getStatus_fixpoint (e2 : RotaryEncoder) (a b s : Bool) (n : Nat)
    (st2 : Int) (hes : e2.encoderStatus = st2)
    (hfix : quadStep st2 a b = some st2)
    (hns1 : st2 ≠ -1) (hns2 : st2 ≠ -2)
    (hsw : (if 0 ≤ e2.switchPin then s else false) = e2.switchStatus)
    (hset : e2.timePressed = 0 ∨ e2.timeout = 0)
    (hlr : e2.lastResult = statusNone) :
    e2.getStatus a b s n = some (0, false, e2) := by
  obtain ⟨sp, ll, ul, sw, c, es, ss, tmo, tp, lr⟩ := e2
  dsimp only at hes hsw hset hlr
  subst hlr
  rw [getStatus_settled _ a b s n st2 (by dsimp only; rw [hes]; exact hfix) hsw hset]
  rw [moveStep_other _ _ hns1 hns2]
  dsimp only
  rw [← hes]
  rfl

end RotaryEncoder

/-- C2: from any defined quadrature state 0..6 and any fixed input pair
(A, B) with a settled switch (level unchanged and no pending long-press
timer), after one poll the input is absorbed: the second poll with the
same input returns `None` with the counter unchanged, its settling delay
runs only when the result changed (i.e. exactly when the first poll's
result was not `None`), and every further poll returns `None` with no
delay and an entirely unchanged state. -/
theorem c2_no_change_idempotent (e : RotaryEncoder) (a b s : Bool)
    (n1 n2 : Nat)
    (hes0 : 0 ≤ e.encoderStatus) (hes6 : e.encoderStatus ≤ 6)
    (hsw : (if 0 ≤ e.switchPin then s else false) = e.switchStatus)
    (hset : e.timePressed = 0 ∨ e.timeout = 0) :
    ∃ r1 d1 e1 d2 e2,
      e.getStatus a b s n1 = some (r1, d1, e1) ∧
      e1.getStatus a b s n2 = some (0, d2, e2) ∧
      e2.count = e1.count ∧
      (d2 = true ↔ r1 ≠ 0) ∧
      ∀ n3 : Nat, e2.getStatus a b s n3 = some (0, false, e2) := by
  obtain ⟨st1, st2, hq1, hq2, hns1, hns2, hfix⟩ :=
    RotaryEncoder.quad_settles a b e.encoderStatus hes0 hes6
  have h1 := RotaryEncoder.getStatus_settled e a b s n1 st1 hq1 hsw hset
  have hq2' : RotaryEncoder.quadStep
      ({ (RotaryEncoder.moveStep { e with encoderStatus := st1 } st1).2 with
        lastResult := (RotaryEncoder.moveStep { e with encoderStatus := st1 } st1).1 }
        : RotaryEncoder).encoderStatus a b = some st2 := by
    simpa using hq2
  have hsw1 : (if 0 ≤ ({ (RotaryEncoder.moveStep { e with encoderStatus := st1 } st1).2 with
        lastResult := (RotaryEncoder.moveStep { e with encoderStatus := st1 } st1).1 }
        : RotaryEncoder).switchPin then s else false) =
      ({ (RotaryEncoder.moveStep { e with encoderStatus := st1 } st1).2 with
        lastResult := (RotaryEncoder.moveStep { e with encoderStatus := st1 } st1).1 }
        : RotaryEncoder).switchStatus := by
    simpa using hsw
  have hset1 : ({ (RotaryEncoder.moveStep { e with encoderStatus := st1 } st1).2 with
        lastResult := (RotaryEncoder.moveStep { e with encoderStatus := st1 } st1).1 }
        : RotaryEncoder).timePressed = 0 ∨
      ({ (RotaryEncoder.moveStep { e with encoderStatus := st1 } st1).2 with
        lastResult := (RotaryEncoder.moveStep { e with encoderStatus := st1 } st1).1 }
        : RotaryEncoder).timeout = 0 := by
    simpa using hset
  have h2 := RotaryEncoder.getStatus_settled _ a b s n2 st2 hq2' hsw1 hset1
  rw [RotaryEncoder.moveStep_other _ _ hns1 hns2] at h2
  refine ⟨_, _, _, _, _, h1, h2, ?_, ?_, ?_⟩
  · simp
  · simp [bne_iff_ne, ne_comm, RotaryEncoder.statusNone]
  · intro n3
    refine RotaryEncoder.getStatus_fixpoint _ a b s n3 st2 (by simp) hfix hns1 hns2
      (by simpa using hsw) (by simpa using hset) (by simp)

/-- Witness for C2: one poll with input (1,0) from the constructed
encoder, then repeated polls with the same input. -/
theorem c2_no_change_idempotent_witness :
    ∃ r1 d1 e1 d2 e2,
      (RotaryEncoder.construct (-1)).getStatus true false false 1 =
        some (r1, d1, e1) ∧
      e1.getStatus true false false 2 = some (0, d2, e2) ∧
      e2.count = e1.count ∧
      (d2 = true ↔ r1 ≠ 0) ∧
      ∀ n3 : Nat, e2.getStatus true false false n3 = some (0, false, e2) :=
  c2_no_change_idempotent (RotaryEncoder.construct (-1)) true false false 1 2
    (by decide) (by decide) (by decide) (Or.inl rfl)

namespace RotaryEncoder

theorem pollSeq_preserve (P : RotaryEncoder → Prop) (Q : Nat → Prop)
    (hPoll : ∀ e a b s n r d e',
      e.getStatus a b s n = some (r, d, e') → P e → P e' ∧ Q r) :
    ∀ inputs (e : RotaryEncoder) rs ef,
      pollSeq e inputs = some (rs, ef) → P e → P ef ∧ ∀ r ∈ rs, Q r := by
  intro inputs
  induction inputs with
  | nil =>
    intro e rs ef h hP
    simp only [pollSeq, Option.some.injEq, Prod.mk.injEq] at h
    obtain ⟨hrs, hef⟩ := h
    subst hef
    exact ⟨hP, by rw [← hrs]; intro x hx; cases hx⟩
  | cons x rest ih =>
    obtain ⟨a, b, s, n⟩ := x
    intro e rs ef h hP
    simp only [pollSeq] at h
    cases hg : e.getStatus a b s n with
    | none => rw [hg] at h; cases h
    | some p =>
      obtain ⟨r, d, e'⟩ := p
      rw [hg] at h
      dsimp only at h
      cases hw : pollSeq e' rest with
      | none => rw [hw] at h; cases h
      | some q =>
        obtain ⟨rs', ef'⟩ := q
        rw [hw] at h
        simp only [Option.map_some', Option.some.injEq, Prod.mk.injEq] at h
        obtain ⟨hrs, hef⟩ := h
        subst hef
        obtain ⟨hP', hQ⟩ := hPoll e a b s n r d e' hg hP
        obtain ⟨hPf, hQf⟩ := ih e' rs' ef' hw hP'
        refine ⟨hPf, ?_⟩
        intro y hy
        rw [← hrs] at hy
        rcases List.mem_cons.mp hy with rfl | hy
        · exact hQ
        · exact hQf y hy

theorem switchUpdate_fst_no8 (e : RotaryEncoder) (s : Bool) (now r : Nat)
    (hto : e.timeout = 0) (hr : r ≤ 2) :
    ((switchUpdate e s now r).1).testBit 3 = false := by
  have hrb : r.testBit 3 = false := testBit_false_of_le_two r hr 3 (by norm_num)
  unfold switchUpdate
  split
  · split
    · rw [Nat.testBit_lor, hrb]
      decide
    · rw [Nat.testBit_lor, hrb]
      decide
  · split
    · rename_i hcond
      exact absurd hto hcond.2.2.1
    · exact hrb

theorem timeout0_poll (e : RotaryEncoder) (a b sRaw : Bool) (now : Nat)
    (r : Nat) (d : Bool) (e' : RotaryEncoder) (hto : e.timeout = 0)
    (h : e.getStatus a b sRaw now = some (r, d, e')) :
    r.testBit 3 = false ∧ e'.timeout = 0 := by
  cases hq : quadStep e.encoderStatus a b with
  | none => rw [getStatus_none _ _ _ _ _ hq] at h; cases h
  | some st1 =>
    rw [getStatus_eq _ _ _ _ _ st1 hq] at h
    simp only [Option.some.injEq, Prod.mk.injEq] at h
    obtain ⟨hr, -, he'⟩ := h
    constructor
    · rw [← hr]
      exact switchUpdate_fst_no8 _ _ _ _ (by simp [hto]) (moveStep_fst_le _ _)
    · rw [← he']
      simp [hto]

theorem switchUpdate_pressed (e : RotaryEncoder) (now r : Nat)
    (hss : e.switchStatus = true) :
    switchUpdate e true now r =
      if e.timePressed ≠ 0 ∧ e.timeout ≠ 0 ∧ usub32 now e.timePressed > e.timeout
      then (r ||| ButtonLongPressed, { e with timePressed := 0 })
      else (r, e) := by
  unfold switchUpdate
  rw [if_neg (by simp [hss])]
  by_cases h : e.timePressed ≠ 0 ∧ e.timeout ≠ 0 ∧ usub32 now e.timePressed > e.timeout
  · rw [if_pos ⟨rfl, h.1, h.2.1, h.2.2⟩, if_pos h]
  · rw [if_neg (by rintro ⟨-, h1, h2, h3⟩; exact h ⟨h1, h2, h3⟩), if_neg h]

theorem getStatus_pressed_eq (e : RotaryEncoder) (a b : Bool) (now : Nat)
    (st1 : Int) (hq : quadStep e.encoderStatus a b = some st1)
    (hpin : 0 ≤ e.switchPin) (hss : e.switchStatus = true) :
    e.getStatus a b true now =
      (if e.timePressed ≠ 0 ∧ e.timeout ≠ 0 ∧
          usub32 now e.timePressed > e.timeout
       then some ((moveStep { e with encoderStatus := st1 } st1).1 ||| ButtonLongPressed,
          ((moveStep { e with encoderStatus := st1 } st1).1 ||| ButtonLongPressed)
            != e.lastResult,
          { (moveStep { e with encoderStatus := st1 } st1).2 with
              timePressed := 0,
              lastResult :=
                (moveStep { e with encoderStatus := st1 } st1).1 ||| ButtonLongPressed })
       else some ((moveStep { e with encoderStatus := st1 } st1).1,
          (moveStep { e with encoderStatus := st1 } st1).1 != e.lastResult,
          { (moveStep { e with encoderStatus := st1 } st1).2 with
              lastResult := (moveStep { e with encoderStatus := st1 } st1).1 })) := by
  obtain ⟨sp, ll, ul, sw, c, es, ss, tmo, tp, lr⟩ := e
  dsimp only at hq hpin hss
  rw [getStatus_eq _ a b true now st1 hq]
  dsimp only
  rw [if_pos hpin]
  rw [switchUpdate_pressed _ now _ (by rw [moveStep_snd_switchStatus]; exact hss)]
  rw [moveStep_snd_timePressed, moveStep_snd_timeout]
  dsimp only
  by_cases hcond : tp ≠ 0 ∧ tmo ≠ 0 ∧ usub32 now tp > tmo
  · rw [if_pos hcond, if_pos hcond]
    dsimp only
    rw [moveStep_snd_lastResult]
  · rw [if_neg hcond, if_neg hcond]
    simp

theorem usub32_sub (x y : Nat) (h1 : y ≤ x) (h2 : x < 2 ^ 32) :
    usub32 x y = x - y := by
  unfold usub32
  omega

end RotaryEncoder

namespace RotaryEncoder

theorem pressedAfterFire (a b : Bool) :
    ∀ (ts : List Nat) (e : RotaryEncoder),
      0 ≤ e.switchPin → e.switchStatus = true → e.timePressed = 0 →
      e.encoderStatus ≤ 6 →
      ∃ rs ef, pollSeq e (ts.map fun n => (a, b, true, n)) = some (rs, ef) ∧
        rs.map (fun r => r.testBit 3) = ts.map (fun _ => false) := by
  intro ts
  induction ts with
  | nil =>
    intro e _ _ _ _
    exact ⟨[], e, rfl, rfl⟩
  | cons n ts ih =>
    intro e hpin hss htp hes
    obtain ⟨st1, hq⟩ := quadStep_isSome e.encoderStatus a b hes
    have hrange := quadStep_range e.encoderStatus a b st1 hq
    have heq := getStatus_pressed_eq e a b n st1 hq hpin hss
    rw [if_neg (fun hc => hc.1 htp)] at heq
    set m := moveStep { e with encoderStatus := st1 } st1 with hm
    obtain ⟨rs', ef, hps, hmap⟩ := ih { m.2 with lastResult := m.1 }
      (by simpa [hm] using hpin) (by simpa [hm] using hss)
      (by simpa [hm] using htp) (by simpa [hm] using hrange.2)
    refine ⟨m.1 :: rs', ef, ?_, ?_⟩
    · simp only [List.map_cons, pollSeq, heq, hps, Option.map_some']
    · simp only [List.map_cons, hmap]
      rw [testBit_false_of_le_two _ (by rw [hm]; exact moveStep_fst_le _ _) 3
        (by norm_num)]

theorem pressedSeq (a b : Bool) (t T : Nat) (ht : 0 < t) (hT : 0 < T) :
    ∀ (ts : List Nat) (e : RotaryEncoder),
      (∀ n ∈ ts, t ≤ n ∧ n < 2 ^ 32) →
      0 ≤ e.switchPin → e.switchStatus = true → e.timePressed = t →
      e.timeout = T → e.encoderStatus ≤ 6 →
      ∃ rs ef, pollSeq e (ts.map fun n => (a, b, true, n)) = some (rs, ef) ∧
        rs.map (fun r => r.testBit 3) = longPressPattern (t + T) ts := by
  intro ts
  induction ts with
  | nil =>
    intro e _ _ _ _ _ _
    exact ⟨[], e, rfl, rfl⟩
  | cons n ts ih =>
    intro e hts hpin hss htp hto hes
    obtain ⟨hn1, hn2⟩ := hts n (by simp)
    obtain ⟨st1, hq⟩ := quadStep_isSome e.encoderStatus a b hes
    have hrange := quadStep_range e.encoderStatus a b st1 hq
    have heq := getStatus_pressed_eq e a b n st1 hq hpin hss
    set m := moveStep { e with encoderStatus := st1 } st1 with hm
    by_cases hfire : t + T < n
    · rw [if_pos ⟨by rw [htp]; omega, by rw [hto]; omega,
        by rw [htp, hto, usub32_sub n t hn1 hn2]; omega⟩] at heq
      obtain ⟨rs', ef, hps, hmap⟩ := pressedAfterFire a b ts
        { m.2 with timePressed := 0, lastResult := m.1 ||| ButtonLongPressed }
        (by simpa [hm] using hpin) (by simpa [hm] using hss)
        (by simp) (by simpa [hm] using hrange.2)
      refine ⟨(m.1 ||| ButtonLongPressed) :: rs', ef, ?_, ?_⟩
      · simp only [List.map_cons, pollSeq, heq, hps, Option.map_some']
      · simp only [List.map_cons, hmap, longPressPattern]
        rw [if_pos hfire]
        have hbit : (m.1 ||| ButtonLongPressed).testBit 3 = true := by
          rw [Nat.testBit_lor]
          have h8 : ButtonLongPressed.testBit 3 = true := by decide
          rw [h8, Bool.or_true]
        rw [hbit]
    · rw [if_neg (by
        rintro ⟨h1, h2, h3⟩
        rw [htp, hto, usub32_sub n t hn1 hn2] at h3
        omega)] at heq
      obtain ⟨rs', ef, hps, hmap⟩ := ih { m.2 with lastResult := m.1 }
        (fun x hx => hts x (by simp [hx]))
        (by simpa [hm] using hpin) (by simpa [hm] using hss)
        (by simpa [hm] using htp) (by simpa [hm] using hto)
        (by simpa [hm] using hrange.2)
      refine ⟨m.1 :: rs', ef, ?_, ?_⟩
      · simp only [List.map_cons, pollSeq, heq, hps, Option.map_some']
      · simp only [List.map_cons, hmap, longPressPattern]
        rw [if_neg hfire]
        rw [testBit_false_of_le_two _ (by rw [hm]; exact moveStep_fst_le _ _) 3
          (by norm_num)]

end RotaryEncoder

/-- C7 counterexample: the long-press comparison is strict
(`millis() - timePressed > timeout`), so the claim's "first poll at which
at least T milliseconds have elapsed" is wrong at the boundary: with
timeout 5 and press timestamp 10, the poll at `millis() = 15` (exactly
5 ms elapsed, hence "at least T") returns `None` — bit 3
(`ButtonLongPressed`) is not set — and the state is unchanged.  Moreover
a press recorded at `millis() = 0` stores the sentinel value 0 in
`timePressed`, so no later poll (here at 100 ms, far beyond the timeout)
ever produces `ButtonLongPressed`, while the claim requires exactly one
such poll. -/
theorem c7_counterexample :
    (RotaryEncoder.getStatus
        { RotaryEncoder.construct 1 with
            switchStatus := true, timePressed := 10, timeout := 5 }
        false false true 15 =
      some (0, false,
        { RotaryEncoder.construct 1 with
            switchStatus := true, timePressed := 10, timeout := 5 })) ∧
    Nat.testBit 0 3 = false ∧
    (RotaryEncoder.getStatus
        { RotaryEncoder.construct 1 with
            switchStatus := true, timePressed := 0, timeout := 5 }
        false false true 100 =
      some (0, false,
        { RotaryEncoder.construct 1 with
            switchStatus := true, timePressed := 0, timeout := 5 })) :=
  ⟨by decide, by decide, by decide⟩

/-- C7 (amended): (i) with no configured timeout (`timeout = 0`) no poll
of any sequence ever returns `ButtonLongPressed` (bit 3); (ii) with
timeout `T > 0` and a press recorded at a nonzero timestamp `t`, a press
sustained across polls produces `ButtonLongPressed` in exactly one poll —
the first poll at which strictly more than `T` milliseconds have elapsed
since the press timestamp (`longPressPattern`) — and in no later poll of
the same press; (iii) a press whose recorded timestamp is 0 (a press at
`millis() = 0`, indistinguishable from the cleared sentinel) never
produces `ButtonLongPressed`. -/
theorem c7_long_press_amended :
    (∀ (e : RotaryEncoder) (inputs : List (Bool × Bool × Bool × Nat))
        (rs : List Nat) (ef : RotaryEncoder),
      e.timeout = 0 → RotaryEncoder.pollSeq e inputs = some (rs, ef) →
      ∀ r ∈ rs, r.testBit 3 = false) ∧
    (∀ (a b : Bool) (t T : Nat) (ts : List Nat) (e : RotaryEncoder),
      0 < t → 0 < T → (∀ n ∈ ts, t ≤ n ∧ n < 2 ^ 32) →
      0 ≤ e.switchPin → e.switchStatus = true → e.timePressed = t →
      e.timeout = T → e.encoderStatus ≤ 6 →
      ∃ rs ef,
        RotaryEncoder.pollSeq e (ts.map fun n => (a, b, true, n)) =
          some (rs, ef) ∧
        rs.map (fun r => r.testBit 3) =
          longPressPattern (t + T) ts) ∧
    (∀ (a b : Bool) (ts : List Nat) (e : RotaryEncoder),
      0 ≤ e.switchPin → e.switchStatus = true → e.timePressed = 0 →
      e.encoderStatus ≤ 6 →
      ∃ rs ef,
        RotaryEncoder.pollSeq e (ts.map fun n => (a, b, true, n)) =
          some (rs, ef) ∧
        rs.map (fun r => r.testBit 3) = ts.map (fun _ => false)) := by
  refine ⟨?_, ?_, ?_⟩
  · intro e inputs rs ef hto hps
    have h := RotaryEncoder.pollSeq_preserve (fun e => e.timeout = 0)
      (fun r => r.testBit 3 = false)
      (fun e a b s n r d e' hg hP => by
        obtain ⟨hbit, hto'⟩ :=
          RotaryEncoder.timeout0_poll e a b s n r d e' hP hg
        exact ⟨hto', hbit⟩) inputs e rs ef hps hto
    exact h.2
  · intro a b t T ts e ht hT hts hpin hss htp hto hes
    exact RotaryEncoder.pressedSeq a b t T ht hT ts e hts hpin hss htp hto hes
  · intro a b ts e hpin hss htp hes
    exact RotaryEncoder.pressedAfterFire a b ts e hpin hss htp hes

/-- Witness for C7's amended theorem: (i) a poll with no timeout, (ii) a
press at timestamp 10 with timeout 5 polled at 12, 16, 20 ms (the flag
fires exactly at 16, the first poll strictly beyond 15), (iii) a press
recorded at timestamp 0 polled at 100 ms. -/
theorem c7_long_press_amended_witness :
    (∀ r ∈ ([0] : List Nat), r.testBit 3 = false) ∧
    (∃ rs ef,
      RotaryEncoder.pollSeq
          { RotaryEncoder.construct 1 with
              switchStatus := true, timePressed := 10, timeout := 5 }
          ([12, 16, 20].map fun n => (false, false, true, n)) =
        some (rs, ef) ∧
      rs.map (fun r => r.testBit 3) =
        longPressPattern 15 [12, 16, 20]) ∧
    (∃ rs ef,
      RotaryEncoder.pollSeq
          { RotaryEncoder.construct 1 with
              switchStatus := true, timePressed := 0, timeout := 5 }
          ([100].map fun n => (false, false, true, n)) =
        some (rs, ef) ∧
      rs.map (fun r => r.testBit 3) = [100].map (fun _ => false)) :=
  ⟨c7_long_press_amended.1 (RotaryEncoder.construct 1)
      [(false, false, false, 3)] [0] (RotaryEncoder.construct 1)
      rfl (by decide),
   c7_long_press_amended.2.1 false false 10 5 [12, 16, 20]
      { RotaryEncoder.construct 1 with
          switchStatus := true, timePressed := 10, timeout := 5 }
      (by decide) (by decide) (by decide) (by decide) rfl rfl rfl (by decide),
   c7_long_press_amended.2.2 false false [100]
      { RotaryEncoder.construct 1 with
          switchStatus := true, timePressed := 0, timeout := 5 }
      (by decide) rfl rfl (by decide)⟩
